import Mathlib

set_option maxRecDepth 8000

/-
Shallow embedding of the core of the task/user CRUD service:
the error taxonomy (src/apps/api/src/error.rs), the request validation
(src/apps/api/src/models.rs), the in-memory Todo store
(src/apps/api/src/store.rs) and the relational user repository
(src/apps/api/src/repository/user.rs).

Modelling conventions:
- `u64` counters are `Nat` reduced modulo `2 ^ 64` where the source
  increments them (Rust release-profile wrapping arithmetic).
- Rust `String::len` (a byte count) is `utf8Len`; Rust
  `s.trim().is_empty()` is `isBlank` (every char whitespace).
- The `HashMap<u64, Todo>` behind the store is an association list with
  hash-map insert/lookup/remove semantics; the mutex serialises all
  operations, so each operation is a pure state transformer.
- The `users` table is a list of rows; each SQL statement of the source
  is embedded as the corresponding pure list transformation, with the
  engine-side `UNIQUE (email)` constraint and the returned-row /
  affected-row count made explicit.  `sqlx` failures are the
  `SqlxError` cases relevant to these statements, and the blanket
  `impl From<sqlx::Error> for AppError` is `AppError.fromSqlx`.
- Timestamps and UUIDs are opaque `Nat` values supplied by the caller
  (`CURRENT_TIMESTAMP` / `gen_random_uuid()` are external inputs).
-/

/- ===== Error taxonomy: src/apps/api/src/error.rs ===== -/

/-- The closed error taxonomy `AppError` of error.rs. -/
inductive AppError where
  | internalServerError (msg : String)
  | validationError (msg : String)
  | unauthorized (msg : String)
  | notFound (msg : String)
  | badRequest (msg : String)
deriving DecidableEq

/-- The `Display` impl for `AppError` (error.rs lines 24-34); this is the
string `tracing` logs via `error = %self`. -/
def AppError.display : AppError → String
  | AppError.internalServerError msg => "Internal server error: " ++ msg
  | AppError.validationError msg => "Validation error: " ++ msg
  | AppError.unauthorized msg => "Unauthorized: " ++ msg
  | AppError.notFound msg => "Not found: " ++ msg
  | AppError.badRequest msg => "Bad request: " ++ msg

/-- The status / tag / client message triple computed by
`AppError::error_info` (error.rs lines 48-76).  For
`InternalServerError` the underlying message is dropped (it is only
logged, as `AppError.display self`) and a fixed generic phrase is
returned. -/
def AppError.error_info : AppError → Nat × String × String
  | AppError.internalServerError _ =>
      (500, "internal_server_error", "An internal server error occurred")
  | AppError.validationError msg => (400, "validation_error", msg)
  | AppError.unauthorized msg => (401, "unauthorized", msg)
  | AppError.notFound msg => (404, "not_found", msg)
  | AppError.badRequest msg => (400, "bad_request", msg)

/-- The JSON body `ErrorResponse { error, message }` of error.rs. -/
structure ErrorResponse where
  error : String
  message : String
deriving DecidableEq

/-- The `IntoResponse` impl (error.rs lines 79-90): status code plus the
serialised `ErrorResponse` body. -/
def AppError.into_response (e : AppError) : Nat × ErrorResponse :=
  (e.error_info.1, { error := e.error_info.2.1, message := e.error_info.2.2 })

/-- The `sqlx::Error` cases a statement of repository/user.rs can
produce: `RowNotFound` (from `fetch_one` with no returned row), a
database error carrying a violated constraint, and I/O-level failures. -/
inductive SqlxError where
  | rowNotFound
  | uniqueViolation (constraint : String)
  | connectionFailure (detail : String)
deriving DecidableEq

/-- The blanket `impl From<sqlx::Error> for AppError` (error.rs lines
110-115): every sqlx error, whatever its case, becomes
`InternalServerError("Database error")`. -/
def AppError.fromSqlx : SqlxError → AppError
  | _ => AppError.internalServerError "Database error"

instance {ε α : Type} [DecidableEq ε] [DecidableEq α] : DecidableEq (Except ε α)
  | Except.error a, Except.error b =>
      if h : a = b then Decidable.isTrue (by rw [h])
      else Decidable.isFalse (by intro hh; cases hh; exact h rfl)
  | Except.error _, Except.ok _ => Decidable.isFalse (by intro hh; cases hh)
  | Except.ok _, Except.error _ => Decidable.isFalse (by intro hh; cases hh)
  | Except.ok a, Except.ok b =>
      if h : a = b then Decidable.isTrue (by rw [h])
      else Decidable.isFalse (by intro hh; cases hh; exact h rfl)

/- ===== Validation layer: src/apps/api/src/models.rs ===== -/

/-- Models Rust `s.trim().is_empty()`: true iff every char of `s` is
whitespace. -/
def isBlank (s : String) : Bool := s.data.all Char.isWhitespace

/-- Models Rust `String::len` - the UTF-8 byte length of the string. -/
def utf8Len (s : String) : Nat := (s.data.map Char.utf8Size).sum

/-- `CreateTodoRequest` of models.rs. -/
structure CreateTodoRequest where
  title : String
  description : Option String
deriving DecidableEq

/-- `CreateTodoRequest::validate` (models.rs lines 87-100). -/
def CreateTodoRequest.validate (req : CreateTodoRequest) : Except String Unit :=
  if isBlank req.title then Except.error "Title cannot be empty"
  else if utf8Len req.title > 200 then Except.error "Title must be 200 characters or less"
  else match req.description with
    | some desc =>
        if utf8Len desc > 1000 then Except.error "Description must be 1000 characters or less"
        else Except.ok ()
    | none => Except.ok ()

/-- `UpdateTodoRequest` of models.rs. -/
structure UpdateTodoRequest where
  title : Option String
  description : Option String
  completed : Option Bool
deriving DecidableEq

/-- `UpdateTodoRequest::validate` (models.rs lines 111-126): the title
rules apply only when a title is provided, then the description rule. -/
def UpdateTodoRequest.validate (req : UpdateTodoRequest) : Except String Unit :=
  match req.title with
  | some title =>
      if isBlank title then Except.error "Title cannot be empty"
      else if utf8Len title > 200 then Except.error "Title must be 200 characters or less"
      else match req.description with
        | some desc =>
            if utf8Len desc > 1000 then Except.error "Description must be 1000 characters or less"
            else Except.ok ()
        | none => Except.ok ()
  | none =>
      match req.description with
      | some desc =>
          if utf8Len desc > 1000 then Except.error "Description must be 1000 characters or less"
          else Except.ok ()
      | none => Except.ok ()

/- ===== In-memory Todo store: src/apps/api/src/store.rs ===== -/

/-- The `Todo` model of models.rs (`id: u64` as `Nat`). -/
structure Todo where
  id : Nat
  title : String
  description : Option String
  completed : Bool
deriving DecidableEq

/-- The wrapping modulus of a `u64`, `2 ^ 64`. -/
def u64Mod : Nat := 18446744073709551616

/-- The state behind `TodoStore`: the `HashMap<u64, Todo>` as an
association list, and the `next_id: u64` counter.  The two mutexes
serialise operations, so every operation is a pure state transformer. -/
structure TodoStore where
  todos : List (Nat × Todo)
  next_id : Nat
deriving DecidableEq

namespace TodoStore

/-- `TodoStore::new`: empty map, counter starts at 1. -/
def new : TodoStore := { todos := [], next_id := 1 }

/-- `HashMap::get` on the association list: first entry with the key. -/
def lookup : List (Nat × Todo) → Nat → Option Todo
  | [], _ => none
  | (k, v) :: rest, id => if k = id then some v else lookup rest id

/-- `TodoStore::get_by_id`. -/
def get_by_id (s : TodoStore) (id : Nat) : Option Todo := lookup s.todos id

/-- `TodoStore::get_all` (values snapshot; order unspecified). -/
def get_all (s : TodoStore) : List Todo := s.todos.map Prod.snd

/-- `HashMap::insert`: replaces any entry with the same key. -/
def insertEntry (m : List (Nat × Todo)) (id : Nat) (todo : Todo) : List (Nat × Todo) :=
  (id, todo) :: m.filter (fun p => p.1 != id)

/-- `TodoStore::create` (store.rs lines 46-63): takes the current
counter as the new id, increments the counter (u64 wrapping), inserts a
`Todo` with `completed = false`, and returns a copy. -/
def create (s : TodoStore) (title : String) (description : Option String) : Todo × TodoStore :=
  let id := s.next_id
  let todo : Todo := { id := id, title := title, description := description, completed := false }
  (todo, { todos := insertEntry s.todos id todo, next_id := (s.next_id + 1) % u64Mod })

/-- The field patching of `TodoStore::update` (store.rs lines 78-87):
each provided field replaces the old value (`description` is wrapped in
`Some`), each omitted field is left unchanged. -/
def applyPatch (todo : Todo) (title description : Option String)
    (completed : Option Bool) : Todo :=
  { todo with
    title := title.getD todo.title
    description := match description with
      | some d => some d
      | none => todo.description
    completed := completed.getD todo.completed }

/-- `HashMap::get_mut` plus in-place mutation: patch the entry with the
given key, leave everything else alone. -/
def updateEntry : List (Nat × Todo) → Nat → Option String → Option String →
    Option Bool → List (Nat × Todo)
  | [], _, _, _, _ => []
  | (k, v) :: rest, id, t, d, c =>
      if k = id then (k, applyPatch v t d c) :: rest
      else (k, v) :: updateEntry rest id t d c

/-- `TodoStore::update` (store.rs lines 69-94): patches the entry if the
id is present and returns a copy of the result, otherwise `None`. -/
def update (s : TodoStore) (id : Nat) (title description : Option String)
    (completed : Option Bool) : Option Todo × TodoStore :=
  match lookup s.todos id with
  | some todo =>
      (some (applyPatch todo title description completed),
       { s with todos := updateEntry s.todos id title description completed })
  | none => (none, s)

/-- `HashMap::remove`. -/
def removeEntry (m : List (Nat × Todo)) (id : Nat) : List (Nat × Todo) :=
  m.filter (fun p => p.1 != id)

/-- `TodoStore::delete` (store.rs lines 100-108): removes the entry and
reports whether it was present.  The counter is not touched. -/
def delete (s : TodoStore) (id : Nat) : Bool × TodoStore :=
  match lookup s.todos id with
  | some _ => (true, { s with todos := removeEntry s.todos id })
  | none => (false, s)

end TodoStore

/-- One client-visible operation on the shared `TodoStore`, for
reasoning about whole operation sequences (the mutexes make any
concurrent execution equivalent to some sequential interleaving). -/
inductive TodoOp where
  | createOp (title : String) (description : Option String)
  | updateOp (id : Nat) (title description : Option String) (completed : Option Bool)
  | deleteOp (id : Nat)
deriving DecidableEq

/-- The state after one operation. -/
def TodoStore.step (s : TodoStore) : TodoOp → TodoStore
  | TodoOp.createOp t d => (s.create t d).2
  | TodoOp.updateOp id t d c => (s.update id t d c).2
  | TodoOp.deleteOp id => (s.delete id).2

/-- The ids returned by the `create` calls of an operation sequence, in
call order. -/
def createdIds (s : TodoStore) : List TodoOp → List Nat
  | [] => []
  | op :: rest =>
      match op with
      | TodoOp.createOp t d => ((s.create t d).1.id) :: createdIds (s.step op) rest
      | _ => createdIds (s.step op) rest

/-- The number of `create` calls in an operation sequence. -/
def countCreates : List TodoOp → Nat
  | [] => 0
  | TodoOp.createOp _ _ :: rest => countCreates rest + 1
  | _ :: rest => countCreates rest

/- ===== User repository: src/apps/api/src/repository/user.rs ===== -/

/-- UUIDs are opaque identifiers; only equality matters here. -/
abbrev Uuid := Nat

/-- Timestamps are opaque instants; only equality matters here. -/
abbrev Timestamp := Nat

/-- A row of the `users` table: the `User` columns plus the internal
soft-delete column `deleted_at`. -/
structure UserRow where
  id : Uuid
  name : String
  email : String
  picture : Option String
  created_at : Timestamp
  updated_at : Timestamp
  deleted_at : Option Timestamp
deriving DecidableEq

/-- The `User` model of models.rs (no `deleted_at`: the repository
selects only the public columns). -/
structure User where
  id : Uuid
  name : String
  email : String
  picture : Option String
  created_at : Timestamp
  updated_at : Timestamp
deriving DecidableEq

/-- The `RETURNING id, name, email, picture, created_at, updated_at`
projection of a row. -/
def UserRow.toUser (r : UserRow) : User :=
  { id := r.id, name := r.name, email := r.email, picture := r.picture,
    created_at := r.created_at, updated_at := r.updated_at }

/-- The `users` table: a list of rows (a physical row is an element;
soft delete never removes elements). -/
abbrev UsersTable := List UserRow

/-- `CreateUser` of models.rs. -/
structure CreateUser where
  name : String
  email : String
  picture : Option String
deriving DecidableEq

/-- `UpdateUser` of models.rs. -/
structure UpdateUser where
  name : Option String
  email : Option String
  picture : Option String
deriving DecidableEq

namespace UserRepository

/-- The `WHERE id = $1 AND deleted_at IS NULL` predicate shared by the
find/update/delete statements. -/
def hitBy (id : Uuid) (r : UserRow) : Bool := r.id == id && r.deleted_at.isNone

/-- `UserRepository::find_by_id` (user.rs lines 31-45): `fetch_optional`
of the live row with the id. -/
def find_by_id (db : UsersTable) (id : Uuid) : Option User :=
  (db.find? (hitBy id)).map UserRow.toUser

/-- `UserRepository::find_by_email` (user.rs lines 58-72):
`WHERE email = $1 AND deleted_at IS NULL`. -/
def find_by_email (db : UsersTable) (email : String) : Option User :=
  (db.find? (fun r => r.email == email && r.deleted_at.isNone)).map UserRow.toUser

/-- The engine-side `UNIQUE (email)` check for an INSERT: does any row
(live or soft-deleted) already carry this email? -/
def emailTaken (db : UsersTable) (email : String) : Bool :=
  db.any (fun r => r.email == email)

/-- Pairwise distinctness of the `email` column - the table invariant
the `UNIQUE (email)` constraint maintains. -/
def emailsNodup : UsersTable → Bool
  | [] => true
  | r :: rest => !(rest.any (fun x => x.email == r.email)) && emailsNodup rest

/-- `UserRepository::create` (user.rs lines 84-100): INSERT with
server-generated id and timestamps.  The storage engine (not the
application code) rejects the insert when `UNIQUE (email)` would be
violated; the resulting `sqlx` database error goes through
`AppError.fromSqlx`.  `newId`/`now` stand for `gen_random_uuid()` and
`CURRENT_TIMESTAMP` (uuid collisions are not modelled). -/
def create (db : UsersTable) (u : CreateUser) (newId : Uuid) (now : Timestamp) :
    Except AppError (User × UsersTable) :=
  if emailTaken db u.email then
    Except.error (AppError.fromSqlx (SqlxError.uniqueViolation "users_email_key"))
  else
    let row : UserRow := { id := newId, name := u.name, email := u.email,
                           picture := u.picture, created_at := now, updated_at := now,
                           deleted_at := none }
    Except.ok (row.toUser, db ++ [row])

/-- The `SET name = COALESCE($2, name), email = COALESCE($3, email),
picture = COALESCE($4, picture), updated_at = CURRENT_TIMESTAMP` row
transformation of `UserRepository::update`. -/
def patchRow (u : UpdateUser) (now : Timestamp) (r : UserRow) : UserRow :=
  { r with
    name := u.name.getD r.name
    email := u.email.getD r.email
    picture := match u.picture with
      | some p => some p
      | none => r.picture
    updated_at := now }

/-- The table after the UPDATE statement of `UserRepository::update`:
every live row with the id is patched, all other rows are untouched. -/
def applyUpdate (db : UsersTable) (id : Uuid) (u : UpdateUser) (now : Timestamp) : UsersTable :=
  db.map (fun r => if hitBy id r then patchRow u now r else r)

/-- `UserRepository::update` (user.rs lines 115-137): one UPDATE over
the live row with the id, `RETURNING` the updated row via `fetch_one`.
The engine rejects the statement if it would break `UNIQUE (email)`;
with no matching live row, zero rows are returned and `fetch_one`
reports `RowNotFound` - which, like every other `sqlx` error, passes
through `AppError.fromSqlx`. -/
def update (db : UsersTable) (id : Uuid) (u : UpdateUser) (now : Timestamp) :
    Except AppError (User × UsersTable) :=
  if emailsNodup db && !(emailsNodup (applyUpdate db id u now)) then
    Except.error (AppError.fromSqlx (SqlxError.uniqueViolation "users_email_key"))
  else
    match db.find? (hitBy id) with
    | some r => Except.ok ((patchRow u now r).toUser, applyUpdate db id u now)
    | none => Except.error (AppError.fromSqlx SqlxError.rowNotFound)

/-- The message of the `NotFound` built in `UserRepository::delete`. -/
def userNotFoundMsg (id : Uuid) : String :=
  "User with id " ++ toString id ++ " not found"

/-- The table after the UPDATE statement of `UserRepository::delete`:
`deleted_at = CURRENT_TIMESTAMP` on every live row with the id. -/
def applyDelete (db : UsersTable) (id : Uuid) (now : Timestamp) : UsersTable :=
  db.map (fun r => if hitBy id r then { r with deleted_at := some now } else r)

/-- `UserRepository::delete` (user.rs lines 150-169): one UPDATE setting
`deleted_at = CURRENT_TIMESTAMP` on the live row with the id, then a
check of `rows_affected()`: zero affected rows means `NotFound`. -/
def delete (db : UsersTable) (id : Uuid) (now : Timestamp) : Except AppError UsersTable :=
  if (db.filter (hitBy id)).length = 0 then
    Except.error (AppError.notFound (userNotFoundMsg id))
  else
    Except.ok (applyDelete db id now)

end UserRepository

/- ===== Concrete sample data for witnesses ===== -/

/-- A one-entry store: todo 1, next id 2. -/
def sampleTodo : Todo := { id := 1, title := "t", description := some "d", completed := false }

/-- The store holding exactly `sampleTodo`. -/
def sampleTodoStore : TodoStore := { todos := [(1, sampleTodo)], next_id := 2 }

/-- A live user row with a picture. -/
def sampleUserRow : UserRow :=
  { id := 7, name := "n", email := "a@b.com", picture := some "p",
    created_at := 0, updated_at := 0, deleted_at := none }

/-- The table holding exactly `sampleUserRow`. -/
def sampleUsersTable : UsersTable := [sampleUserRow]

/- ===== Helper lemmas ===== -/

theorem lookup_insertEntry_self (m : List (Nat × Todo)) (id : Nat) (todo : Todo) :
    TodoStore.lookup (TodoStore.insertEntry m id todo) id = some todo := by
  simp [TodoStore.insertEntry, TodoStore.lookup]

theorem lookup_updateEntry_some (m : List (Nat × Todo)) (id : Nat) (todo : Todo)
    (t d : Option String) (c : Option Bool) (h : TodoStore.lookup m id = some todo) :
    TodoStore.lookup (TodoStore.updateEntry m id t d c) id
      = some (TodoStore.applyPatch todo t d c) := by
  induction m with
  | nil => simp [TodoStore.lookup] at h
  | cons p rest ih =>
      obtain ⟨k, v⟩ := p
      by_cases hk : k = id
      · subst hk
        simp [TodoStore.lookup] at h
        subst h
        simp [TodoStore.updateEntry, TodoStore.lookup]
      · simp [TodoStore.lookup, hk] at h
        simp [TodoStore.updateEntry, TodoStore.lookup, hk, ih h]

theorem lookup_removeEntry_self (m : List (Nat × Todo)) (id : Nat) :
    TodoStore.lookup (TodoStore.removeEntry m id) id = none := by
  induction m with
  | nil => simp [TodoStore.removeEntry, TodoStore.lookup]
  | cons p rest ih =>
      obtain ⟨k, v⟩ := p
      by_cases hk : k = id
      · subst hk
        simpa [TodoStore.removeEntry, TodoStore.lookup] using ih
      · simpa [TodoStore.removeEntry, TodoStore.lookup, hk] using ih

/- ===== C5 ===== -/

/-- C5: for every title and optional description, `TodoStore::create`
followed by `get_by_id` with the returned id yields the created entity:
`completed = false`, the supplied title and the supplied description. -/
theorem todo_create_then_get (s : TodoStore) (title : String) (description : Option String) :
    (s.create title description).1.completed = false
    ∧ (s.create title description).1.title = title
    ∧ (s.create title description).1.description = description
    ∧ (s.create title description).2.get_by_id (s.create title description).1.id
        = some (s.create title description).1 := by
  refine ⟨rfl, rfl, rfl, ?_⟩
  simp [TodoStore.create, TodoStore.get_by_id, lookup_insertEntry_self]

/- ===== C3 ===== -/

/-- C3: `TodoStore::update` replaces exactly the provided fields: the
returned entity keeps the pre-update value of every omitted field and
carries the provided value of every provided field, the stored entity
equals the returned one, and in particular an update providing only
`completed` changes only `completed`. -/
theorem todo_update_frame (s : TodoStore) (id : Nat) (todo : Todo)
    (t d : Option String) (c : Option Bool) (h : s.get_by_id id = some todo) :
    (s.update id t d c).1
        = some { id := todo.id
                 title := t.getD todo.title
                 description := match d with
                   | some dd => some dd
                   | none => todo.description
                 completed := c.getD todo.completed }
    ∧ (s.update id t d c).2.get_by_id id = (s.update id t d c).1
    ∧ (s.update id none none (some true)).1 = some { todo with completed := true } := by
  have h2 : TodoStore.lookup s.todos id = some todo := h
  refine ⟨?_, ?_, ?_⟩
  · simp [TodoStore.update, h2, TodoStore.applyPatch]
  · simp [TodoStore.update, h2, TodoStore.get_by_id, lookup_updateEntry_some _ _ _ t d c h2]
  · simp [TodoStore.update, h2, TodoStore.applyPatch]

/-- Witness for C3 at a concrete store. -/
theorem todo_update_frame_witness :
    sampleTodoStore.get_by_id 1 = some sampleTodo
    ∧ ((sampleTodoStore.update 1 (some "u") none (some true)).1
        = some { id := 1, title := "u", description := some "d", completed := true }
      ∧ (sampleTodoStore.update 1 (some "u") none (some true)).2.get_by_id 1
          = (sampleTodoStore.update 1 (some "u") none (some true)).1
      ∧ (sampleTodoStore.update 1 none none (some true)).1
          = some { sampleTodo with completed := true }) :=
  ⟨by decide, todo_update_frame sampleTodoStore 1 sampleTodo (some "u") none (some true) (by decide)⟩

/- ===== C7 ===== -/

/-- C7: task creation validation rejects a whitespace-only title and a
201-byte title, accepts a 200-byte title, and (title fixed valid) an
optional description passes exactly when it is at most 1000 bytes. -/
theorem todo_validation_bounds :
    CreateTodoRequest.validate { title := "   ", description := none }
        = Except.error "Title cannot be empty"
    ∧ CreateTodoRequest.validate
          { title := String.mk (List.replicate 201 'a'), description := none }
        = Except.error "Title must be 200 characters or less"
    ∧ CreateTodoRequest.validate
          { title := String.mk (List.replicate 200 'a'), description := none }
        = Except.ok ()
    ∧ ∀ d : String,
        (CreateTodoRequest.validate { title := "t", description := some d } = Except.ok ()
          ↔ utf8Len d ≤ 1000) := by
  refine ⟨by decide, by decide, by decide, ?_⟩
  intro d
  have hblank : isBlank "t" = false := by decide
  have hlen : utf8Len "t" = 1 := by decide
  by_cases hd : utf8Len d > 1000
  · simp [CreateTodoRequest.validate, hblank, hlen, hd]
  · simp [CreateTodoRequest.validate, hblank, hlen, hd]
    omega

/- ===== C8 ===== -/

/-- C8: the client-visible response for `InternalServerError(m)` does
not depend on `m`: it is always status 500 with tag
`internal_server_error` and the fixed generic phrase, while the string
logged server-side (the `Display` rendering) does carry `m`. -/
theorem internal_error_response_uniform (m1 m2 : String) :
    AppError.into_response (AppError.internalServerError m1)
        = AppError.into_response (AppError.internalServerError m2)
    ∧ AppError.into_response (AppError.internalServerError m1)
        = (500, { error := "internal_server_error",
                  message := "An internal server error occurred" })
    ∧ AppError.display (AppError.internalServerError m1)
        = "Internal server error: " ++ m1 :=
  ⟨rfl, rfl, rfl⟩

/- ===== C1 (divergence witness) ===== -/

/-- C1: evaluating `UserRepository::update` where no live row matches -
an empty table, and a table whose only row with the id is soft-deleted -
the result is `InternalServerError("Database error")` (the blanket
`From<sqlx::Error>` applied to `RowNotFound`), which maps to a 500
`internal_server_error` response, not to the `NotFound` member the
claim (and the handler doc comment) state. -/
theorem user_update_absent_row_internal_error :
    UserRepository.update [] 0 { name := none, email := none, picture := none } 0
        = Except.error (AppError.internalServerError "Database error")
    ∧ UserRepository.update [{ sampleUserRow with deleted_at := some 3 }] 7
          { name := none, email := none, picture := none } 9
        = Except.error (AppError.internalServerError "Database error")
    ∧ (AppError.internalServerError "Database error").error_info
        = (500, "internal_server_error", "An internal server error occurred") :=
  ⟨by decide, by decide, rfl⟩

/- ===== C4 ===== -/

theorem step_next_id_of_update (s : TodoStore) (id : Nat) (t d : Option String)
    (c : Option Bool) : ((s.update id t d c).2).next_id = s.next_id := by
  unfold TodoStore.update
  cases TodoStore.lookup s.todos id <;> rfl

theorem step_next_id_of_delete (s : TodoStore) (id : Nat) :
    ((s.delete id).2).next_id = s.next_id := by
  unfold TodoStore.delete
  cases TodoStore.lookup s.todos id <;> rfl

theorem createdIds_eq_nil (ops : List TodoOp) (h : countCreates ops = 0) :
    ∀ s : TodoStore, createdIds s ops = [] := by
  induction ops with
  | nil => intro s; rfl
  | cons op rest ih =>
      intro s
      cases op with
      | createOp t d => simp [countCreates] at h
      | updateOp id t d c => exact ih (by simpa [countCreates] using h) _
      | deleteOp id => exact ih (by simpa [countCreates] using h) _

theorem createdIds_lb_pairwise (ops : List TodoOp) : ∀ s : TodoStore,
    s.next_id + countCreates ops ≤ u64Mod →
    (∀ x ∈ createdIds s ops, s.next_id ≤ x)
    ∧ List.Pairwise (fun a b => a < b) (createdIds s ops) := by
  induction ops with
  | nil => intro s _; simp [createdIds]
  | cons op rest ih =>
      intro s hs
      cases op with
      | updateOp id t d c =>
          have hnext : ((s.update id t d c).2).next_id = s.next_id :=
            step_next_id_of_update s id t d c
          have hrec := ih (s.update id t d c).2 (by rw [hnext]; simpa [countCreates] using hs)
          simpa [createdIds, TodoStore.step, hnext] using hrec
      | deleteOp id =>
          have hnext : ((s.delete id).2).next_id = s.next_id :=
            step_next_id_of_delete s id
          have hrec := ih (s.delete id).2 (by rw [hnext]; simpa [countCreates] using hs)
          simpa [createdIds, TodoStore.step, hnext] using hrec
      | createOp t d =>
          have hcount : countCreates (TodoOp.createOp t d :: rest) = countCreates rest + 1 := rfl
          rw [hcount] at hs
          by_cases hc : countCreates rest = 0
          · have hnil := createdIds_eq_nil rest hc (TodoStore.step s (TodoOp.createOp t d))
            simp [createdIds, hnil, TodoStore.create]
          · have hlt : s.next_id + 1 < u64Mod := by omega
            have hnext : ((s.create t d).2).next_id = s.next_id + 1 := by
              simp [TodoStore.create]
              exact Nat.mod_eq_of_lt hlt
            have hrec := ih (s.create t d).2 (by rw [hnext]; omega)
            obtain ⟨hlb, hpw⟩ := hrec
            constructor
            · intro x hx
              simp [createdIds, TodoStore.step, TodoStore.create] at hx
              rcases hx with hx | hx
              · omega
              · have := hlb x (by simpa [TodoStore.step] using hx)
                omega
            · refine List.Pairwise.cons ?_ (by simpa [TodoStore.step] using hpw)
              intro x hx
              have := hlb x (by simpa [TodoStore.step] using hx)
              have hid : (s.create t d).1.id = s.next_id := rfl
              simp [TodoStore.create]
              omega

/-- C4: over any sequence of store operations from the fresh store (the
mutex serialises concurrent calls into such a sequence), as long as the
`u64` id counter does not wrap, the ids returned by `create` are
strictly increasing in creation order - hence pairwise distinct - and
an id is never issued again, even after the entity holding it was
deleted. -/
theorem todo_create_ids_strictly_increasing (ops : List TodoOp)
    (h : countCreates ops ≤ u64Mod - 1) :
    List.Pairwise (fun a b => a < b) (createdIds TodoStore.new ops) := by
  have hbound : TodoStore.new.next_id + countCreates ops ≤ u64Mod := by
    have : TodoStore.new.next_id = 1 := rfl
    rw [this]
    unfold u64Mod at *
    omega
  exact (createdIds_lb_pairwise ops TodoStore.new hbound).2

/-- Witness for C4: a concrete sequence with two creates, a delete of
the first entity and a further create; the returned ids 1, 2, 3 are
strictly increasing and id 1 is not reused after its deletion. -/
theorem todo_create_ids_strictly_increasing_witness :
    countCreates [TodoOp.createOp "a" none, TodoOp.createOp "b" (some "x"),
        TodoOp.deleteOp 1, TodoOp.createOp "c" none] ≤ u64Mod - 1
    ∧ List.Pairwise (fun a b => a < b)
        (createdIds TodoStore.new
          [TodoOp.createOp "a" none, TodoOp.createOp "b" (some "x"),
           TodoOp.deleteOp 1, TodoOp.createOp "c" none]) :=
  ⟨by decide, todo_create_ids_strictly_increasing
      [TodoOp.createOp "a" none, TodoOp.createOp "b" (some "x"),
       TodoOp.deleteOp 1, TodoOp.createOp "c" none] (by decide)⟩

/- ===== User repository helper lemmas ===== -/

theorem applyDelete_kills (db : UsersTable) (id : Uuid) (now : Timestamp) :
    ∀ r ∈ UserRepository.applyDelete db id now, UserRepository.hitBy id r = false := by
  intro r hr
  rw [UserRepository.applyDelete, List.mem_map] at hr
  obtain ⟨r0, _, rfl⟩ := hr
  by_cases hhit : UserRepository.hitBy id r0 = true
  · rw [if_pos hhit]
    simp [UserRepository.hitBy]
  · rw [if_neg hhit]
    exact Bool.eq_false_iff.mpr hhit

theorem user_delete_ok_elim (db db2 : UsersTable) (id : Uuid) (now : Timestamp)
    (h : UserRepository.delete db id now = Except.ok db2) :
    db2 = UserRepository.applyDelete db id now
    ∧ db.filter (UserRepository.hitBy id) ≠ [] := by
  unfold UserRepository.delete at h
  by_cases hz : (db.filter (UserRepository.hitBy id)).length = 0
  · simp [hz] at h
  · simp [hz] at h
    refine ⟨h.symm, ?_⟩
    intro hnil
    exact hz (by rw [hnil]; rfl)

theorem emailsNodup_mem_unique (db : UsersTable)
    (hnd : UserRepository.emailsNodup db = true) (r1 r2 : UserRow)
    (h1 : r1 ∈ db) (h2 : r2 ∈ db) (he : r1.email = r2.email) : r1 = r2 := by
  induction db with
  | nil => cases h1
  | cons r rest ih =>
      rw [UserRepository.emailsNodup, Bool.and_eq_true, Bool.not_eq_true',
        List.any_eq_false] at hnd
      obtain ⟨hna, hnd2⟩ := hnd
      rcases List.mem_cons.mp h1 with rfl | h1m <;> rcases List.mem_cons.mp h2 with rfl | h2m
      · rfl
      · exact absurd (by simpa using he.symm) (by simpa using hna r2 h2m)
      · exact absurd (by simpa using he) (by simpa using hna r1 h1m)
      · exact ih hnd2 h1m h2m

theorem find?_map_of_pred_comm {α : Type} (p : α → Bool) (f : α → α) (l : List α)
    (hf : ∀ x, p (f x) = p x) : (l.map f).find? p = (l.find? p).map f := by
  induction l with
  | nil => rfl
  | cons a as ih =>
      cases ha : p a with
      | true => simp [List.find?, List.find?_cons, hf a, ha]
      | false => simp [List.find?, List.find?_cons, hf a, ha, ih]

theorem user_update_ok_elim (db db2 : UsersTable) (id : Uuid) (u : UpdateUser)
    (now : Timestamp) (u2 : User)
    (h : UserRepository.update db id u now = Except.ok (u2, db2)) :
    ∃ r, db.find? (UserRepository.hitBy id) = some r
      ∧ u2 = (UserRepository.patchRow u now r).toUser
      ∧ db2 = UserRepository.applyUpdate db id u now := by
  unfold UserRepository.update at h
  split at h
  · simp at h
  · split at h
    · rename_i r heq
      simp only [Except.ok.injEq, Prod.mk.injEq] at h
      exact ⟨r, heq, h.1.symm, h.2.symm⟩
    · simp at h

theorem hitBy_applyUpdate_comm (id : Uuid) (u : UpdateUser) (now : Timestamp) :
    ∀ x : UserRow,
      UserRepository.hitBy id
          (if UserRepository.hitBy id x then UserRepository.patchRow u now x else x)
        = UserRepository.hitBy id x := by
  intro x
  by_cases hx : UserRepository.hitBy id x = true
  · simp only [hx, if_true]
    simpa [UserRepository.hitBy, UserRepository.patchRow] using hx
  · simp [hx]

/- ===== C2 ===== -/

/-- C2: when `UserRepository::delete` succeeds on a user (with the email
column unique, as the `UNIQUE (email)` constraint guarantees), the user
becomes invisible to both `find_by_id` and `find_by_email`, yet the
table keeps the same number of rows and still physically contains the
user's row, now carrying `deleted_at = some now` - delete only writes
the soft-delete timestamp. -/
theorem user_soft_delete_hides_but_retains
    (db db2 : UsersTable) (id : Uuid) (now : Timestamp) (u : User)
    (hfind : UserRepository.find_by_id db id = some u)
    (hnd : UserRepository.emailsNodup db = true)
    (hdel : UserRepository.delete db id now = Except.ok db2) :
    UserRepository.find_by_id db2 id = none
    ∧ UserRepository.find_by_email db2 u.email = none
    ∧ db2.length = db.length
    ∧ ∃ r ∈ db, UserRepository.hitBy id r = true
        ∧ { r with deleted_at := some now } ∈ db2
        ∧ r.toUser = u := by
  obtain ⟨hdb2, hne⟩ := user_delete_ok_elim db db2 id now hdel
  rw [UserRepository.find_by_id] at hfind
  cases hfq : db.find? (UserRepository.hitBy id) with
  | none => rw [hfq] at hfind; simp at hfind
  | some r =>
      rw [hfq] at hfind
      simp only [Option.map] at hfind
      rw [Option.some.injEq] at hfind
      have hrmem : r ∈ db := List.mem_of_find?_eq_some hfq
      have hrhit : UserRepository.hitBy id r = true := List.find?_some hfq
      refine ⟨?_, ?_, ?_, ?_⟩
      · have hnone : db2.find? (UserRepository.hitBy id) = none := by
          apply List.find?_eq_none.mpr
          intro x hx
          rw [hdb2] at hx
          simp [applyDelete_kills db id now x hx]
        simp [UserRepository.find_by_id, hnone]
      · have hnone : db2.find? (fun x => x.email == u.email && x.deleted_at.isNone) = none := by
          apply List.find?_eq_none.mpr
          intro x hx
          rw [hdb2, UserRepository.applyDelete, List.mem_map] at hx
          obtain ⟨x0, hx0, rfl⟩ := hx
          by_cases hhit : UserRepository.hitBy id x0 = true
          · rw [if_pos hhit]; simp
          · rw [if_neg hhit]
            intro hcontra
            rw [Bool.and_eq_true, beq_iff_eq] at hcontra
            obtain ⟨hem, hlive⟩ := hcontra
            have hemr : x0.email = r.email := by
              rw [hem, ← hfind]
              rfl
            have hx0r : x0 = r := emailsNodup_mem_unique db hnd x0 r hx0 hrmem hemr
            subst hx0r
            exact hhit hrhit
        simp [UserRepository.find_by_email, hnone]
      · simp [hdb2, UserRepository.applyDelete]
      · refine ⟨r, hrmem, hrhit, ?_, hfind⟩
        rw [hdb2, UserRepository.applyDelete]
        exact List.mem_map.mpr ⟨r, hrmem, by simp [hrhit]⟩

/-- Witness for C2 at a concrete one-row table. -/
theorem user_soft_delete_witness :
    UserRepository.find_by_id sampleUsersTable 7 = some sampleUserRow.toUser
    ∧ UserRepository.emailsNodup sampleUsersTable = true
    ∧ UserRepository.delete sampleUsersTable 7 5
        = Except.ok [{ sampleUserRow with deleted_at := some 5 }]
    ∧ (UserRepository.find_by_id [{ sampleUserRow with deleted_at := some 5 }] 7 = none
      ∧ UserRepository.find_by_email [{ sampleUserRow with deleted_at := some 5 }]
          sampleUserRow.toUser.email = none
      ∧ ([{ sampleUserRow with deleted_at := some 5 }] : UsersTable).length
          = sampleUsersTable.length
      ∧ ∃ r ∈ sampleUsersTable, UserRepository.hitBy 7 r = true
          ∧ { r with deleted_at := some 5 } ∈
              ([{ sampleUserRow with deleted_at := some 5 }] : UsersTable)
          ∧ r.toUser = sampleUserRow.toUser) :=
  ⟨by decide, by decide, by decide,
    user_soft_delete_hides_but_retains sampleUsersTable
      [{ sampleUserRow with deleted_at := some 5 }] 7 5 sampleUserRow.toUser
      (by decide) (by decide) (by decide)⟩

/- ===== C6 ===== -/

/-- C6: delete is non-idempotent in both stores: after a successful
`TodoStore::delete` a second delete of the same id returns `false`, and
after a successful `UserRepository::delete` a second delete of the same
id fails with exactly the `NotFound` member that an id with no row at
all produces. -/
theorem delete_not_idempotent :
    (∀ (s : TodoStore) (id : Nat),
        (s.delete id).1 = true → ((s.delete id).2.delete id).1 = false)
    ∧ (∀ (db db2 : UsersTable) (id : Uuid) (t1 t2 : Timestamp),
        UserRepository.delete db id t1 = Except.ok db2 →
        UserRepository.delete db2 id t2
          = Except.error (AppError.notFound (UserRepository.userNotFoundMsg id)))
    ∧ (∀ (db : UsersTable) (id : Uuid) (t : Timestamp),
        (∀ r ∈ db, r.id ≠ id) →
        UserRepository.delete db id t
          = Except.error (AppError.notFound (UserRepository.userNotFoundMsg id))) := by
  refine ⟨?_, ?_, ?_⟩
  · intro s id _
    cases hl : TodoStore.lookup s.todos id with
    | none => simp [TodoStore.delete, hl]
    | some todo => simp [TodoStore.delete, hl, lookup_removeEntry_self]
  · intro db db2 id t1 t2 hdel
    obtain ⟨hdb2, _⟩ := user_delete_ok_elim db db2 id t1 hdel
    have hfil : db2.filter (UserRepository.hitBy id) = [] := by
      apply List.filter_eq_nil_iff.mpr
      intro x hx
      rw [hdb2] at hx
      simp [applyDelete_kills db id t1 x hx]
    unfold UserRepository.delete
    rw [hfil]
    simp
  · intro db id t hno
    have hfil : db.filter (UserRepository.hitBy id) = [] := by
      apply List.filter_eq_nil_iff.mpr
      intro x hx
      intro hc
      rw [UserRepository.hitBy, Bool.and_eq_true, beq_iff_eq] at hc
      exact hno x hx hc.1
    unfold UserRepository.delete
    rw [hfil]
    simp

/-- Witness for C6 at concrete stores. -/
theorem delete_not_idempotent_witness :
    ((sampleTodoStore.delete 1).1 = true
      ∧ ((sampleTodoStore.delete 1).2.delete 1).1 = false)
    ∧ (UserRepository.delete sampleUsersTable 7 3
          = Except.ok [{ sampleUserRow with deleted_at := some 3 }]
      ∧ UserRepository.delete [{ sampleUserRow with deleted_at := some 3 }] 7 9
          = Except.error (AppError.notFound (UserRepository.userNotFoundMsg 7)))
    ∧ UserRepository.delete [] 7 9
        = Except.error (AppError.notFound (UserRepository.userNotFoundMsg 7)) :=
  ⟨⟨by decide, delete_not_idempotent.1 sampleTodoStore 1 (by decide)⟩,
   ⟨by decide, delete_not_idempotent.2.1 sampleUsersTable
      [{ sampleUserRow with deleted_at := some 3 }] 7 3 9 (by decide)⟩,
   delete_not_idempotent.2.2 [] 7 9 (by simp)⟩

/- ===== C9 ===== -/

/-- C9 counterexample: inserting a second user with the already-present
email `"a@b.com"` does not produce a distinct `Conflict`-class error: it
produces `InternalServerError("Database error")`, the very same value
`From<sqlx::Error>` produces for an unrelated generic storage failure
such as a connection loss. -/
theorem user_create_conflict_counterexample :
    UserRepository.create sampleUsersTable
        { name := "m", email := "a@b.com", picture := none } 8 5
      = Except.error (AppError.internalServerError "Database error")
    ∧ AppError.fromSqlx (SqlxError.connectionFailure "connection reset")
      = AppError.internalServerError "Database error" :=
  ⟨by decide, rfl⟩

/-- C9 amended: when the storage engine reports the email-uniqueness
violation on insert, `UserRepository::create` fails - but with the
generic `InternalServerError("Database error")` member (the taxonomy
has no Conflict member and the sqlx conversion collapses every storage
error into this one value). -/
theorem user_create_email_conflict_internal_error (db : UsersTable) (u : CreateUser)
    (newId : Uuid) (now : Timestamp)
    (h : UserRepository.emailTaken db u.email = true) :
    UserRepository.create db u newId now
      = Except.error (AppError.internalServerError "Database error") := by
  simp [UserRepository.create, h, AppError.fromSqlx]

/-- Witness for the amended C9 at a concrete table. -/
theorem user_create_email_conflict_witness :
    UserRepository.emailTaken sampleUsersTable "a@b.com" = true
    ∧ UserRepository.create sampleUsersTable
          { name := "m", email := "a@b.com", picture := none } 8 5
        = Except.error (AppError.internalServerError "Database error") :=
  ⟨by decide, user_create_email_conflict_internal_error sampleUsersTable
      { name := "m", email := "a@b.com", picture := none } 8 5 (by decide)⟩

/- ===== C10 ===== -/

/-- C10: neither update operation can clear an optional field back to
absent.  A Todo whose description is `Some` before `TodoStore::update`
has a `Some` description after it, whatever the patch; a User whose
picture is non-NULL before `UserRepository::update` has a non-NULL
picture in the returned user, which is also the stored live row
afterwards. -/
theorem optional_fields_never_cleared :
    (∀ (s : TodoStore) (id : Nat) (todo todo2 : Todo)
        (t d : Option String) (c : Option Bool),
        s.get_by_id id = some todo → todo.description.isSome = true →
        (s.update id t d c).1 = some todo2 → todo2.description.isSome = true)
    ∧ (∀ (db db2 : UsersTable) (id : Uuid) (p : UpdateUser) (now : Timestamp)
        (u u2 : User),
        UserRepository.find_by_id db id = some u → u.picture.isSome = true →
        UserRepository.update db id p now = Except.ok (u2, db2) →
        u2.picture.isSome = true ∧ UserRepository.find_by_id db2 id = some u2) := by
  constructor
  · intro s id todo todo2 t d c hget hsome hupd
    have h2 : TodoStore.lookup s.todos id = some todo := hget
    rw [TodoStore.update] at hupd
    simp only [h2, Option.some.injEq] at hupd
    cases d with
    | some dd => simp [← hupd, TodoStore.applyPatch]
    | none => simpa [← hupd, TodoStore.applyPatch] using hsome
  · intro db db2 id p now u u2 hfind hsome hupd
    obtain ⟨r, hfq, hu2, hdb2⟩ := user_update_ok_elim db db2 id p now u2 hupd
    have hfind2 : (db.find? (UserRepository.hitBy id)).map UserRow.toUser = some u := hfind
    rw [hfq] at hfind2
    simp only [Option.map] at hfind2
    rw [Option.some.injEq] at hfind2
    have hrpic : r.picture = u.picture := by rw [← hfind2]; rfl
    constructor
    · rw [hu2]
      cases hp : p.picture with
      | some pp => simp [UserRepository.patchRow, UserRow.toUser, hp]
      | none => simp [UserRepository.patchRow, UserRow.toUser, hp, hrpic, hsome]
    · rw [hdb2, UserRepository.applyUpdate, UserRepository.find_by_id,
        find?_map_of_pred_comm (UserRepository.hitBy id) _ db (hitBy_applyUpdate_comm id p now),
        hfq]
      have hrhit : UserRepository.hitBy id r = true := List.find?_some hfq
      simp [hrhit, hu2]

/-- Witness for C10 at concrete states: an update providing no
description / no picture keeps the stored `Some` values. -/
theorem optional_fields_never_cleared_witness :
    (sampleTodoStore.get_by_id 1 = some sampleTodo
      ∧ sampleTodo.description.isSome = true
      ∧ (sampleTodoStore.update 1 (some "u") none (some true)).1
          = some { id := 1, title := "u", description := some "d", completed := true }
      ∧ ({ id := 1, title := "u", description := some "d",
           completed := true } : Todo).description.isSome = true)
    ∧ (UserRepository.find_by_id sampleUsersTable 7 = some sampleUserRow.toUser
      ∧ sampleUserRow.toUser.picture.isSome = true
      ∧ UserRepository.update sampleUsersTable 7
            { name := some "m", email := none, picture := none } 4
          = Except.ok ({ id := 7, name := "m", email := "a@b.com", picture := some "p",
                         created_at := 0, updated_at := 4 },
                       [{ sampleUserRow with name := "m", updated_at := 4 }])
      ∧ ({ id := 7, name := "m", email := "a@b.com", picture := some "p",
           created_at := 0, updated_at := 4 } : User).picture.isSome = true
      ∧ UserRepository.find_by_id [{ sampleUserRow with name := "m", updated_at := 4 }] 7
          = some { id := 7, name := "m", email := "a@b.com", picture := some "p",
                   created_at := 0, updated_at := 4 }) :=
  ⟨⟨by decide, by decide, by decide, by decide⟩,
   by decide, by decide,
   by decide, by decide, by decide⟩
